import Mathlib

/-!
Verification of the SPF-chain resolution engine (easybill/spf-check).

This file gives a shallow embedding of the two traversal variants of the
repository and proves the specification claims about them.

* `SpfCheck.checkLoop` / `SpfCheck.check` embed `SpfChecker::check` from
  `src/spf_checker.rs` (the iterative, stack-based, lookup-budgeted
  traversal, lines 56–130).
* `SpfCheck.mainCheck` embeds the recursive variant `SpfChecker::check`
  from `src/main.rs` (lines 80–186), which clones the visited set into
  each include branch.

The two external collaborators are parameters of the embedding:

* the Record Source (`SpnResolver::find_spf_record`), modelled as
  `RecordSource := String → Except Unit (Option String)` — `.error` is a
  failed DNS lookup, `.ok none` means "no SPF record", `.ok (some txt)`
  returns the raw record text;
* the Mechanism Extractor (`decon_spf`'s `Spf::from_str` plus the
  `kind()` / `raw()` accessors used by the code), modelled as
  `MechExtractor := String → Option (List Mechanism)` — `none` is a
  parse failure, otherwise the record's mechanisms in record order.
  Per the repository's own tests, `raw()` of an `include:` or
  `redirect=` mechanism is the bare target domain.

The Rust `Vec` used as `to_visit_stack` pushes and pops at its end; the
embedding represents the stack as a `List` whose **head** is that end,
so `Vec::pop` is taking the head and `Vec::extend [a, b]` prepends
`b :: a :: ·`.

`checkLoop` additionally threads a ghost component `queried`: the list
of domains passed to the Record Source, in call order.  It is returned
alongside the `CheckResult` and does not influence the traversal.
-/

namespace SpfCheck

/-- Mechanism kinds distinguished by the code: `include`, `redirect`,
`all`, and everything else. -/
inductive MechKind where
  | inc
  | redir
  | all
  | other
deriving DecidableEq, Repr

/-- Model of `kind().is_include()` of `decon_spf`. -/
def MechKind.is_include : MechKind → Bool
  | .inc => true
  | _ => false

/-- Model of `kind().is_redirect()` of `decon_spf`. -/
def MechKind.is_redirect : MechKind → Bool
  | .redir => true
  | _ => false

/-- Model of `kind().is_all()` of `decon_spf`. -/
def MechKind.is_all : MechKind → Bool
  | .all => true
  | _ => false

/-- One SPF mechanism as the code consumes it: a kind and the raw text
returned by `mechanism.raw()` (for `include:`/`redirect=` mechanisms
this is the bare target domain, as pinned by the repository's tests). -/
structure Mechanism where
  kind : MechKind
  raw : String
deriving DecidableEq, Repr

/-- The Record Source collaborator (`SpnResolver::find_spf_record`). -/
abbrev RecordSource := String → Except Unit (Option String)

/-- The Mechanism Extractor collaborator (`Spf::from_str` + iteration). -/
abbrev MechExtractor := String → Option (List Mechanism)

/-- Model of `spf.iter().filter(is_include).map(raw)` (spf_checker.rs lines 88–92). -/
def includesOf (spf : List Mechanism) : List String :=
  (spf.filter fun m => m.kind.is_include).map fun m => m.raw

/-- Model of `spf.iter().filter(is_redirect).map(raw)` (spf_checker.rs lines 111–114). -/
def redirectsOf (spf : List Mechanism) : List String :=
  (spf.filter fun m => m.kind.is_redirect).map fun m => m.raw

/-- Model of `spf.iter().any(is_all)` (spf_checker.rs line 110). -/
def hasAll (spf : List Mechanism) : Bool :=
  spf.any fun m => m.kind.is_all

/-- The constant `DNS_LOOKUP_LIMIT` (spf_checker.rs line 39). -/
def DNS_LOOKUP_LIMIT : Nat := 10

/-- The error taxonomy of the traversal: the Record Source failed for a
queried domain (`anyhow` context `DNS_LOOKUP_FAILED`), or a retrieved
record failed to parse (`anyhow` context `SPF_PARSE_FAILED`). -/
inductive CheckError where
  | recordSourceError (domain : String)
  | recordParseError (raw : String)
deriving DecidableEq, Repr

/-- The struct `CheckResult` (spf_checker.rs lines 28–33). -/
structure CheckResult where
  found : Bool
  visited : Nat
  spf_record : Option String
  included_domains : Option (List String)
deriving DecidableEq, Repr

/-- The `while let Some(current_domain) = to_visit_stack.pop()` loop of
`SpfChecker::check` (spf_checker.rs lines 63–129).  State:

* `visited` — the `HashSet` (as a duplicate-free list; the code only
  uses `len`, `insert` and membership, so the representation order is
  irrelevant);
* `stack` — `to_visit_stack`, head = the `Vec`'s pop/push end;
* `root_spf_record`, `included_domains` — the accumulators of lines
  60–61;
* `queried` — ghost trace of Record Source calls.

Note that the `break` on budget exhaustion (line 70) and the natural
loop exit fall through to the same `Ok(CheckResult { found: false, .. })`
at lines 124–129, so both cases return the same value here. -/
def checkLoop (src : RecordSource) (extract : MechExtractor) (root target : String)
    (visited stack : List String) (root_spf_record : Option String)
    (included_domains queried : List String) :
    Except CheckError (CheckResult × List String) :=
  match stack with
  | [] =>
    .ok (⟨false, visited.length, root_spf_record, some included_domains⟩, queried)
  | current :: rest =>
    if visited.length ≥ DNS_LOOKUP_LIMIT then
      .ok (⟨false, visited.length, root_spf_record, some included_domains⟩, queried)
    else if current ∈ visited then
      -- `!visited.insert(current)`: already visited, continue
      checkLoop src extract root target visited rest root_spf_record
        included_domains queried
    else
      match src current with
      | .error _ => .error (.recordSourceError current)
      | .ok none =>
        -- no SPF record: dead end, continue
        checkLoop src extract root target (current :: visited) rest
          root_spf_record included_domains (queried ++ [current])
      | .ok (some spf_txt) =>
        match extract spf_txt with
        | none => .error (.recordParseError spf_txt)
        | some spf =>
          -- the Rust locals `root_spf_record` (updated when `current` is the
          -- root), `includes` and the extended `included_domains` are inlined
          if target ∈ includesOf spf then
            -- target found: early return
            .ok (⟨true, (current :: visited).length,
              (if root = current then some spf_txt else root_spf_record),
              some (included_domains ++ includesOf spf)⟩, queried ++ [current])
          else
            -- redirect ignored when an `all` mechanism is present;
            -- `extend(redirect)` then `extend(includes)`, so the new
            -- stack (head = top) is includes.reverse ++ redirects.reverse ++ rest
            checkLoop src extract root target (current :: visited)
              ((includesOf spf).reverse ++
                (if hasAll spf then [] else redirectsOf spf).reverse ++ rest)
              (if root = current then some spf_txt else root_spf_record)
              (included_domains ++ includesOf spf) (queried ++ [current])
termination_by (DNS_LOOKUP_LIMIT - visited.length, stack.length)

/-- Model of `SpfChecker::check` (spf_checker.rs lines 56–61): fresh empty
visited set, frontier containing only the root, empty accumulators. -/
def check (src : RecordSource) (extract : MechExtractor) (root target : String) :
    Except CheckError (CheckResult × List String) :=
  checkLoop src extract root target [] [root] none [] []

/-- Model of Rust's `str::starts_with`, character by character. -/
def strStartsWith (s p : String) : Bool :=
  p.data.isPrefixOf s.data

/-- Drop the first `n` characters of a string. -/
def strDropChars (s : String) (n : Nat) : String :=
  ⟨s.data.drop n⟩

/-- Model of Rust's `str::trim_start_matches("redirect=")`: repeatedly strip a
leading `redirect=`.  Each strip removes 9 characters, so `s.length`
steps of fuel always suffice. -/
def trimRedirectMarks : Nat → String → String
  | 0, s => s
  | f + 1, s =>
    if strStartsWith s "redirect=" then trimRedirectMarks f (strDropChars s 9) else s

/-- The redirect extraction of main.rs (lines 115–118):
`spf.iter().find(|m| m.raw().starts_with("redirect=")).map(trim_start_matches("redirect="))`.
Since `raw()` of a redirect mechanism is the bare domain (see the module
comment), this predicate matches only a raw text that literally starts
with `redirect=`. -/
def redirectOfMain (spf : List Mechanism) : Option String :=
  (spf.find? fun m => strStartsWith m.raw "redirect=").map fun m =>
    trimRedirectMarks m.raw.length m.raw

/-- The field `max_depth` of main.rs (set to 10 in `SpfChecker::new`, line 59). -/
def MAX_DEPTH : Nat := 10

/-- The recursive `SpfChecker::check` of main.rs (lines 80–186).
Returns the `(found, spf_record, included_domains)` triple (`.error` for
a propagated resolver/parse failure) **paired with the number of
`get_spf` lookups the whole invocation performed** (ghost count; an
erroring subtree still counts the lookups it made before failing, and
`join_all` runs every include branch, so branch counts always add up).

State passing mirrors the Rust borrowing exactly: each frame inserts its
own domain (`domain :: visited`), every include branch receives a
**clone** of that set (`visited.clone()` in the closures of lines
127–139 and 162–170), and the redirect branch receives the frame's own
set — which at fan-out time still contains only the frame's own inserts,
because the children mutated clones.  `visited.len() == 1` (line 120)
distinguishes the root frame.  Include-branch errors are swallowed by
`unwrap_or(&(false, None, None))` (lines 142, 173); the frame's own
lookup/parse errors and redirect-branch errors propagate via `?`.

Fuel bounds the recursion depth; every recursive call grows the visited
set of its frame by one and frames stop at `MAX_DEPTH`, so any fuel
`> MAX_DEPTH + 1` is never exhausted; out-of-fuel returns the same value
as the depth guard. -/
def mainCheck (src : RecordSource) (extract : MechExtractor) (target : String) :
    Nat → String → List String →
    (Except Unit (Bool × Option String × Option (List String))) × Nat
  | 0, _, _ => (.ok (false, none, none), 0)
  | f + 1, domain, visited =>
    if visited.length ≥ MAX_DEPTH then (.ok (false, none, none), 0)
    else if domain ∈ visited then (.ok (false, none, none), 0)
    else
      match src domain with
      | .error _ => (.error (), 1)
      | .ok none => (.ok (false, none, none), 1)
      | .ok (some spf_txt) =>
        match extract spf_txt with
        | none => (.error (), 1)
        | some spf =>
          let includes := includesOf spf
          let redirect := redirectOfMain spf
          if (domain :: visited).length = 1 then
            -- root frame (`visited.len() == 1` after the insert)
            if target ∈ includes then
              (.ok (true, some spf_txt, some includes), 1)
            else
              let children := includes.map fun i =>
                mainCheck src extract target f i (domain :: visited)
              let childLookups := (children.map fun c => c.2).sum
              let found := children.any fun c => (c.1.toOption.getD (false, none, none)).1
              if !found && redirect.isSome then
                match redirect with
                | some redirect_domain =>
                  match mainCheck src extract target f redirect_domain (domain :: visited) with
                  | (.error e, n) => (.error e, 1 + childLookups + n)
                  | (.ok rres, n) =>
                    if rres.1 then (.ok (true, some spf_txt, some includes), 1 + childLookups + n)
                    else (.ok (found, some spf_txt, some includes), 1 + childLookups + n)
                | none => (.ok (found, some spf_txt, some includes), 1 + childLookups)
              else (.ok (found, some spf_txt, some includes), 1 + childLookups)
          else
            -- nested frame
            if target ∈ includes then
              (.ok (true, none, none), 1)
            else
              let children := includes.map fun i =>
                mainCheck src extract target f i (domain :: visited)
              let childLookups := (children.map fun c => c.2).sum
              let found_in_includes := children.any fun c => (c.1.toOption.getD (false, none, none)).1
              if found_in_includes then (.ok (true, none, none), 1 + childLookups)
              else
                match redirect with
                | some redirect_domain =>
                  let r := mainCheck src extract target f redirect_domain (domain :: visited)
                  (r.1, 1 + childLookups + r.2)
                | none => (.ok (false, none, none), 1 + childLookups)

/-- A Record Source backed by a finite domain→record table and never
failing (the shape of the repository's `MockResolver` test double). -/
def tableSrc (tbl : List (String × String)) : RecordSource := fun d =>
  .ok ((tbl.find? fun p => p.1 == d).map fun p => p.2)

/-- A Record Source whose every lookup fails. -/
def failSrc : RecordSource := fun _ => .error ()

/-- A Mechanism Extractor backed by a finite raw-text→mechanisms table;
raw texts not in the table fail to parse. -/
def tableExtract (tbl : List (String × List Mechanism)) : MechExtractor := fun s =>
  (tbl.find? fun p => p.1 == s).map fun p => p.2

/-- Record table of the spec's budget-ceiling scenario: a chain of 15
distinct, never-repeating include edges `d0 → d1 → ⋯ → d15`. -/
def chainRecords : List (String × String) :=
  [("d0", "v=spf1 include:d1"), ("d1", "v=spf1 include:d2"),
   ("d2", "v=spf1 include:d3"), ("d3", "v=spf1 include:d4"),
   ("d4", "v=spf1 include:d5"), ("d5", "v=spf1 include:d6"),
   ("d6", "v=spf1 include:d7"), ("d7", "v=spf1 include:d8"),
   ("d8", "v=spf1 include:d9"), ("d9", "v=spf1 include:d10"),
   ("d10", "v=spf1 include:d11"), ("d11", "v=spf1 include:d12"),
   ("d12", "v=spf1 include:d13"), ("d13", "v=spf1 include:d14"),
   ("d14", "v=spf1 include:d15")]

/-- Parses of `chainRecords`. -/
def chainParses : List (String × List Mechanism) :=
  [("v=spf1 include:d1", [⟨.inc, "d1"⟩]), ("v=spf1 include:d2", [⟨.inc, "d2"⟩]),
   ("v=spf1 include:d3", [⟨.inc, "d3"⟩]), ("v=spf1 include:d4", [⟨.inc, "d4"⟩]),
   ("v=spf1 include:d5", [⟨.inc, "d5"⟩]), ("v=spf1 include:d6", [⟨.inc, "d6"⟩]),
   ("v=spf1 include:d7", [⟨.inc, "d7"⟩]), ("v=spf1 include:d8", [⟨.inc, "d8"⟩]),
   ("v=spf1 include:d9", [⟨.inc, "d9"⟩]), ("v=spf1 include:d10", [⟨.inc, "d10"⟩]),
   ("v=spf1 include:d11", [⟨.inc, "d11"⟩]), ("v=spf1 include:d12", [⟨.inc, "d12"⟩]),
   ("v=spf1 include:d13", [⟨.inc, "d13"⟩]), ("v=spf1 include:d14", [⟨.inc, "d14"⟩]),
   ("v=spf1 include:d15", [⟨.inc, "d15"⟩])]

/-- Record table of the spec's cycle scenario: `a.com` includes `b.com`
and `b.com` includes `a.com`. -/
def cycleRecords : List (String × String) :=
  [("a.com", "v=spf1 include:b.com ~all"), ("b.com", "v=spf1 include:a.com ~all")]

/-- Parses of `cycleRecords`. -/
def cycleParses : List (String × List Mechanism) :=
  [("v=spf1 include:b.com ~all", [⟨.inc, "b.com"⟩, ⟨.all, "~all"⟩]),
   ("v=spf1 include:a.com ~all", [⟨.inc, "a.com"⟩, ⟨.all, "~all"⟩])]

/-- Record table refuting C3 as stated: the root record carries an
`all` mechanism, an include naming `b.com` and a redirect naming the
same `b.com`; `b.com` has a record of its own. -/
def allRedirRecords : List (String × String) :=
  [("a.com", "v=spf1 all include:b.com redirect=b.com"), ("b.com", "v=spf1 -all")]

/-- Parses of `allRedirRecords`. -/
def allRedirParses : List (String × List Mechanism) :=
  [("v=spf1 all include:b.com redirect=b.com",
    [⟨.all, "all"⟩, ⟨.inc, "b.com"⟩, ⟨.redir, "b.com"⟩]),
   ("v=spf1 -all", [⟨.all, "-all"⟩])]

/-- Record table of the spec's redirect-suppressed-by-`all` scenario:
the root record has `all` and a redirect (and no includes); the redirect
target has a record of its own. -/
def allSuppressRecords : List (String × String) :=
  [("example.com", "v=spf1 all redirect=spf.other.com"),
   ("spf.other.com", "v=spf1 include:mail.x.com ~all")]

/-- Parses of `allSuppressRecords`. -/
def allSuppressParses : List (String × List Mechanism) :=
  [("v=spf1 all redirect=spf.other.com", [⟨.all, "all"⟩, ⟨.redir, "spf.other.com"⟩]),
   ("v=spf1 include:mail.x.com ~all", [⟨.inc, "mail.x.com"⟩, ⟨.all, "~all"⟩])]

/-- Record table refuting the visit-order consequence of C4: the root
has includes `i1.com`, `i2.com` and redirect `rr.com`, and `i2.com`'s
record includes `rr.com`, so `rr.com` is pushed again above `i1.com`. -/
def orderRecords : List (String × String) :=
  [("a.com", "v=spf1 include:i1.com include:i2.com redirect=rr.com"),
   ("i2.com", "v=spf1 include:rr.com ~all")]

/-- Parses of `orderRecords`. -/
def orderParses : List (String × List Mechanism) :=
  [("v=spf1 include:i1.com include:i2.com redirect=rr.com",
    [⟨.inc, "i1.com"⟩, ⟨.inc, "i2.com"⟩, ⟨.redir, "rr.com"⟩]),
   ("v=spf1 include:rr.com ~all", [⟨.inc, "rr.com"⟩, ⟨.all, "~all"⟩])]

/-- Record table refuting C5 as stated: the root's record names the
target `t.com` only through its redirect; `t.com` has no record. -/
def redirOnlyRecords : List (String × String) :=
  [("a.com", "v=spf1 redirect=t.com")]

/-- Parses of `redirOnlyRecords`. -/
def redirOnlyParses : List (String × List Mechanism) :=
  [("v=spf1 redirect=t.com", [⟨.redir, "t.com"⟩])]

/-- Record table of the repository's `test_target_in_first_record`:
the root's own record includes the target. -/
def directRecords : List (String × String) :=
  [("example.com", "v=spf1 include:mail.easybill.de ~all")]

/-- Parses of `directRecords`. -/
def directParses : List (String × List Mechanism) :=
  [("v=spf1 include:mail.easybill.de ~all",
    [⟨.inc, "mail.easybill.de"⟩, ⟨.all, "~all"⟩])]

/-- Record table exhibiting the budget blow-up of the main.rs variant:
the root includes `c1.com` twice, and `c1.com … c8.com` chain into
`c9.com`, so each of the two sibling branches, on its own cloned visited
set, performs 9 lookups. -/
def cloneRecords : List (String × String) :=
  [("r.com", "v=spf1 include:c1.com include:c1.com"),
   ("c1.com", "v=spf1 include:c2.com"), ("c2.com", "v=spf1 include:c3.com"),
   ("c3.com", "v=spf1 include:c4.com"), ("c4.com", "v=spf1 include:c5.com"),
   ("c5.com", "v=spf1 include:c6.com"), ("c6.com", "v=spf1 include:c7.com"),
   ("c7.com", "v=spf1 include:c8.com"), ("c8.com", "v=spf1 include:c9.com"),
   ("c9.com", "v=spf1 -all")]

/-- Parses of `cloneRecords`. -/
def cloneParses : List (String × List Mechanism) :=
  [("v=spf1 include:c1.com include:c1.com", [⟨.inc, "c1.com"⟩, ⟨.inc, "c1.com"⟩]),
   ("v=spf1 include:c2.com", [⟨.inc, "c2.com"⟩]),
   ("v=spf1 include:c3.com", [⟨.inc, "c3.com"⟩]),
   ("v=spf1 include:c4.com", [⟨.inc, "c4.com"⟩]),
   ("v=spf1 include:c5.com", [⟨.inc, "c5.com"⟩]),
   ("v=spf1 include:c6.com", [⟨.inc, "c6.com"⟩]),
   ("v=spf1 include:c7.com", [⟨.inc, "c7.com"⟩]),
   ("v=spf1 include:c8.com", [⟨.inc, "c8.com"⟩]),
   ("v=spf1 include:c9.com", [⟨.inc, "c9.com"⟩]),
   ("v=spf1 -all", [⟨.all, "-all"⟩])]

/-- A domain on which the traversal cannot fail: its Record Source
lookup does not error and any record text it returns parses. -/
def GoodDomain (src : RecordSource) (extract : MechExtractor) (d : String) : Prop :=
  src d ≠ .error () ∧ ∀ s, src d = .ok (some s) → extract s ≠ none

/-- Fuel-indexed mirror of `checkLoop`, identical branch for branch;
`none` means the fuel ran out.  Used to evaluate concrete runs by
kernel reduction; `checkLoopF_sound` transfers its results to
`checkLoop`. -/
def checkLoopF (src : RecordSource) (extract : MechExtractor) (root target : String) :
    Nat → List String → List String → Option String → List String → List String →
    Option (Except CheckError (CheckResult × List String))
  | 0, _, _, _, _, _ => none
  | f + 1, visited, stack, root_spf_record, included_domains, queried =>
    match stack with
    | [] =>
      some (.ok (⟨false, visited.length, root_spf_record, some included_domains⟩, queried))
    | current :: rest =>
      if visited.length ≥ DNS_LOOKUP_LIMIT then
        some (.ok (⟨false, visited.length, root_spf_record, some included_domains⟩, queried))
      else if current ∈ visited then
        checkLoopF src extract root target f visited rest root_spf_record
          included_domains queried
      else
        match src current with
        | .error _ => some (.error (.recordSourceError current))
        | .ok none =>
          checkLoopF src extract root target f (current :: visited) rest
            root_spf_record included_domains (queried ++ [current])
        | .ok (some spf_txt) =>
          match extract spf_txt with
          | none => some (.error (.recordParseError spf_txt))
          | some spf =>
            if target ∈ includesOf spf then
              some (.ok (⟨true, (current :: visited).length,
                (if root = current then some spf_txt else root_spf_record),
                some (included_domains ++ includesOf spf)⟩, queried ++ [current]))
            else
              checkLoopF src extract root target f (current :: visited)
                ((includesOf spf).reverse ++
                  (if hasAll spf then [] else redirectsOf spf).reverse ++ rest)
                (if root = current then some spf_txt else root_spf_record)
                (included_domains ++ includesOf spf) (queried ++ [current])

/-- A fuelled run that did not exhaust its fuel computes `checkLoop`. -/
theorem checkLoopF_sound (src : RecordSource) (extract : MechExtractor)
    (root target : String) :
    ∀ (f : Nat) (visited stack : List String) (rr : Option String)
      (acc tr : List String) (r : Except CheckError (CheckResult × List String)),
      checkLoopF src extract root target f visited stack rr acc tr = some r →
      checkLoop src extract root target visited stack rr acc tr = r := by
  intro f
  induction f with
  | zero =>
    intro visited stack rr acc tr r h
    simp [checkLoopF] at h
  | succ f ih =>
    intro visited stack rr acc tr r h
    rw [checkLoop.eq_def]
    simp only [checkLoopF] at h
    cases stack with
    | nil => exact Option.some.inj h
    | cons current rest =>
      by_cases hb : visited.length ≥ DNS_LOOKUP_LIMIT
      · simp only [if_pos hb] at h ⊢
        exact Option.some.inj h
      · by_cases hv : current ∈ visited
        · simp only [if_neg hb, if_pos hv] at h ⊢
          exact ih _ _ _ _ _ _ h
        · simp only [if_neg hb, if_neg hv] at h ⊢
          cases hsrc : src current with
          | error e =>
            simp only [hsrc] at h ⊢
            exact Option.some.inj h
          | ok o =>
            cases o with
            | none =>
              simp only [hsrc] at h ⊢
              exact ih _ _ _ _ _ _ h
            | some spf_txt =>
              simp only [hsrc] at h ⊢
              cases hex : extract spf_txt with
              | none =>
                simp only [hex] at h ⊢
                exact Option.some.inj h
              | some spf =>
                simp only [hex] at h ⊢
                by_cases ht : target ∈ includesOf spf
                · simp only [if_pos ht] at h ⊢
                  exact Option.some.inj h
                · simp only [if_neg ht] at h ⊢
                  exact ih _ _ _ _ _ _ h

/-- Every `checkLoop` run is computed by `checkLoopF` with some fuel:
the loop always terminates and the fuelled mirror is complete. -/
theorem checkLoop_complete (src : RecordSource) (extract : MechExtractor)
    (root target : String) :
    ∀ (visited stack : List String) (rr : Option String) (acc tr : List String),
      ∃ f, checkLoopF src extract root target f visited stack rr acc tr =
        some (checkLoop src extract root target visited stack rr acc tr) := by
  intro visited stack rr acc tr
  induction visited, stack, rr, acc, tr using checkLoop.induct src extract root target with
  | case1 visited rr acc tr =>
    exact ⟨1, by rw [checkLoop.eq_def]; simp [checkLoopF]⟩
  | case2 visited rr acc tr current rest hb =>
    exact ⟨1, by rw [checkLoop.eq_def]; simp [checkLoopF, hb]⟩
  | case3 visited rr acc tr current rest hb hv ihr =>
    obtain ⟨f, hf⟩ := ihr
    refine ⟨f + 1, ?_⟩
    rw [checkLoop.eq_def]
    simp only [checkLoopF, if_neg hb, if_pos hv]
    exact hf
  | case4 visited rr acc tr current rest hb hv e hsrc =>
    exact ⟨1, by rw [checkLoop.eq_def]; simp [checkLoopF, hb, hv, hsrc]⟩
  | case5 visited rr acc tr current rest hb hv hsrc ihr =>
    obtain ⟨f, hf⟩ := ihr
    refine ⟨f + 1, ?_⟩
    rw [checkLoop.eq_def]
    simp only [checkLoopF, if_neg hb, if_neg hv, hsrc]
    exact hf
  | case6 visited rr acc tr current rest hb hv spf_txt hsrc hex =>
    exact ⟨1, by rw [checkLoop.eq_def]; simp [checkLoopF, hb, hv, hsrc, hex]⟩
  | case7 visited rr acc tr current rest hb hv spf_txt hsrc spf hex ht =>
    refine ⟨1, ?_⟩
    rw [checkLoop.eq_def]
    simp only [checkLoopF, if_neg hb, if_neg hv, hsrc, hex, if_pos ht]
  | case8 visited rr acc tr current rest hb hv spf_txt hsrc spf hex ht ihr =>
    obtain ⟨f, hf⟩ := ihr
    refine ⟨f + 1, ?_⟩
    rw [checkLoop.eq_def]
    simp only [checkLoopF, if_neg hb, if_neg hv, hsrc, hex, if_neg ht]
    exact hf

/-- Loop invariant: the visited set is exactly the reversed query
trace, is duplicate-free, and never exceeds the lookup budget.  A
normally terminating run therefore reports `visited` = number of Record
Source queries, a duplicate-free query trace, and at most
`DNS_LOOKUP_LIMIT` of either. -/
theorem checkLoopF_invariant (src : RecordSource) (extract : MechExtractor)
    (root target : String) :
    ∀ (f : Nat) (visited stack : List String) (rr : Option String)
      (acc tr : List String) (res : CheckResult) (tr' : List String),
      checkLoopF src extract root target f visited stack rr acc tr = some (.ok (res, tr')) →
      visited = tr.reverse → visited.Nodup → visited.length ≤ DNS_LOOKUP_LIMIT →
      res.visited = tr'.length ∧ tr'.Nodup ∧ res.visited ≤ DNS_LOOKUP_LIMIT := by
  intro f
  induction f with
  | zero => intro visited stack rr acc tr res tr' h; simp [checkLoopF] at h
  | succ f ih =>
    intro visited stack rr acc tr res tr' h hrev hnd hle
    subst hrev
    simp only [checkLoopF] at h
    cases stack with
    | nil =>
      simp only [Option.some.injEq, Except.ok.injEq, Prod.mk.injEq] at h
      obtain ⟨rfl, rfl⟩ := h
      exact ⟨by simp, List.nodup_reverse.mp hnd, by simpa using hle⟩
    | cons current rest =>
      by_cases hb : tr.reverse.length ≥ DNS_LOOKUP_LIMIT
      · simp only [if_pos hb, Option.some.injEq, Except.ok.injEq, Prod.mk.injEq] at h
        obtain ⟨rfl, rfl⟩ := h
        exact ⟨by simp, List.nodup_reverse.mp hnd, by simpa using hle⟩
      · by_cases hv : current ∈ tr.reverse
        · simp only [if_neg hb, if_pos hv] at h
          exact ih _ _ _ _ _ _ _ h rfl hnd hle
        · simp only [if_neg hb, if_neg hv] at h
          have hnd' : (current :: tr.reverse).Nodup := List.nodup_cons.mpr ⟨hv, hnd⟩
          have hle' : (current :: tr.reverse).length ≤ DNS_LOOKUP_LIMIT := by
            simp only [List.length_cons]
            omega
          have hrev' : current :: tr.reverse = (tr ++ [current]).reverse := by simp
          cases hsrc : src current with
          | error e => simp [hsrc] at h
          | ok o =>
            cases o with
            | none =>
              simp only [hsrc] at h
              exact ih _ _ _ _ _ _ _ h hrev' hnd' hle'
            | some spf_txt =>
              simp only [hsrc] at h
              cases hex : extract spf_txt with
              | none => simp [hex] at h
              | some spf =>
                simp only [hex] at h
                by_cases ht : target ∈ includesOf spf
                · simp only [if_pos ht, Option.some.injEq, Except.ok.injEq,
                    Prod.mk.injEq] at h
                  obtain ⟨rfl, rfl⟩ := h
                  refine ⟨by simp, ?_, by simpa using hle'⟩
                  rw [show tr ++ [current] = (current :: tr.reverse).reverse from by simp,
                    List.nodup_reverse]
                  exact hnd'
                · simp only [if_neg ht] at h
                  exact ih _ _ _ _ _ _ _ h hrev' hnd' hle'

/-- The result's `found` flag is `true` exactly when the target occurs
in the accumulated `included_domains` list — i.e. exactly when some
visited domain's record named the target through an `include`
mechanism. -/
theorem checkLoopF_found_iff (src : RecordSource) (extract : MechExtractor)
    (root target : String) :
    ∀ (f : Nat) (visited stack : List String) (rr : Option String)
      (acc tr : List String) (res : CheckResult) (tr' : List String),
      checkLoopF src extract root target f visited stack rr acc tr = some (.ok (res, tr')) →
      target ∉ acc →
      (res.found = true ↔ ∃ l, res.included_domains = some l ∧ target ∈ l) := by
  intro f
  induction f with
  | zero => intro visited stack rr acc tr res tr' h; simp [checkLoopF] at h
  | succ f ih =>
    intro visited stack rr acc tr res tr' h hacc
    simp only [checkLoopF] at h
    cases stack with
    | nil =>
      simp only [Option.some.injEq, Except.ok.injEq, Prod.mk.injEq] at h
      obtain ⟨rfl, rfl⟩ := h
      simp [hacc]
    | cons current rest =>
      by_cases hb : visited.length ≥ DNS_LOOKUP_LIMIT
      · simp only [if_pos hb, Option.some.injEq, Except.ok.injEq, Prod.mk.injEq] at h
        obtain ⟨rfl, rfl⟩ := h
        simp [hacc]
      · by_cases hv : current ∈ visited
        · simp only [if_neg hb, if_pos hv] at h
          exact ih _ _ _ _ _ _ _ h hacc
        · simp only [if_neg hb, if_neg hv] at h
          cases hsrc : src current with
          | error e => simp [hsrc] at h
          | ok o =>
            cases o with
            | none =>
              simp only [hsrc] at h
              exact ih _ _ _ _ _ _ _ h hacc
            | some spf_txt =>
              simp only [hsrc] at h
              cases hex : extract spf_txt with
              | none => simp [hex] at h
              | some spf =>
                simp only [hex] at h
                by_cases ht : target ∈ includesOf spf
                · simp only [if_pos ht, Option.some.injEq, Except.ok.injEq,
                    Prod.mk.injEq] at h
                  obtain ⟨rfl, rfl⟩ := h
                  exact ⟨fun _ => ⟨acc ++ includesOf spf, rfl, by simp [ht]⟩, fun _ => rfl⟩
                · simp only [if_neg ht] at h
                  exact ih _ _ _ _ _ _ _ h (by simp [hacc, ht])

/-- An error result is always one of the two failure conditions: the
Record Source failed for the queried domain, or a record that the
Record Source actually returned failed to parse. -/
theorem checkLoopF_error_char (src : RecordSource) (extract : MechExtractor)
    (root target : String) :
    ∀ (f : Nat) (visited stack : List String) (rr : Option String)
      (acc tr : List String) (e : CheckError),
      checkLoopF src extract root target f visited stack rr acc tr = some (.error e) →
      (∃ d, e = .recordSourceError d ∧ src d = .error ()) ∨
      (∃ s, e = .recordParseError s ∧ extract s = none ∧ ∃ d, src d = .ok (some s)) := by
  intro f
  induction f with
  | zero => intro visited stack rr acc tr e h; simp [checkLoopF] at h
  | succ f ih =>
    intro visited stack rr acc tr e h
    simp only [checkLoopF] at h
    cases stack with
    | nil => simp at h
    | cons current rest =>
      by_cases hb : visited.length ≥ DNS_LOOKUP_LIMIT
      · simp [if_pos hb] at h
      · by_cases hv : current ∈ visited
        · simp only [if_neg hb, if_pos hv] at h
          exact ih _ _ _ _ _ _ h
        · simp only [if_neg hb, if_neg hv] at h
          cases hsrc : src current with
          | error u =>
            simp only [hsrc, Option.some.injEq, Except.error.injEq] at h
            exact Or.inl ⟨current, h.symm, by cases u; exact hsrc⟩
          | ok o =>
            cases o with
            | none =>
              simp only [hsrc] at h
              exact ih _ _ _ _ _ _ h
            | some spf_txt =>
              simp only [hsrc] at h
              cases hex : extract spf_txt with
              | none =>
                simp only [hex, Option.some.injEq, Except.error.injEq] at h
                exact Or.inr ⟨spf_txt, h.symm, hex, current, hsrc⟩
              | some spf =>
                simp only [hex] at h
                by_cases ht : target ∈ includesOf spf
                · simp [if_pos ht] at h
                · simp only [if_neg ht] at h
                  exact ih _ _ _ _ _ _ h

/-- In a normally terminating run, every domain that was queried (and
was not already in the incoming trace) had a working Record Source
answer, and any record text it returned parsed: errors never produce an
`ok` result. -/
theorem checkLoopF_ok_trace (src : RecordSource) (extract : MechExtractor)
    (root target : String) :
    ∀ (f : Nat) (visited stack : List String) (rr : Option String)
      (acc tr : List String) (res : CheckResult) (tr' : List String),
      checkLoopF src extract root target f visited stack rr acc tr = some (.ok (res, tr')) →
      (∀ d ∈ tr, GoodDomain src extract d) →
      ∀ d ∈ tr', GoodDomain src extract d := by
  intro f
  induction f with
  | zero => intro visited stack rr acc tr res tr' h; simp [checkLoopF] at h
  | succ f ih =>
    intro visited stack rr acc tr res tr' h htr
    simp only [checkLoopF] at h
    cases stack with
    | nil =>
      simp only [Option.some.injEq, Except.ok.injEq, Prod.mk.injEq] at h
      obtain ⟨rfl, rfl⟩ := h
      exact htr
    | cons current rest =>
      by_cases hb : visited.length ≥ DNS_LOOKUP_LIMIT
      · simp only [if_pos hb, Option.some.injEq, Except.ok.injEq, Prod.mk.injEq] at h
        obtain ⟨rfl, rfl⟩ := h
        exact htr
      · by_cases hv : current ∈ visited
        · simp only [if_neg hb, if_pos hv] at h
          exact ih _ _ _ _ _ _ _ h htr
        · simp only [if_neg hb, if_neg hv] at h
          cases hsrc : src current with
          | error e => simp [hsrc] at h
          | ok o =>
            cases o with
            | none =>
              simp only [hsrc] at h
              refine ih _ _ _ _ _ _ _ h ?_
              intro d hd
              rcases List.mem_append.mp hd with hd | hd
              · exact htr d hd
              · simp only [List.mem_singleton] at hd
                subst hd
                exact ⟨by simp [hsrc], fun s hs => by simp [hsrc] at hs⟩
            | some spf_txt =>
              simp only [hsrc] at h
              cases hex : extract spf_txt with
              | none => simp [hex] at h
              | some spf =>
                have hgood : GoodDomain src extract current := by
                  refine ⟨by simp [hsrc], fun s hs => ?_⟩
                  rw [hsrc] at hs
                  simp only [Except.ok.injEq, Option.some.injEq] at hs
                  subst hs
                  simp [hex]
                simp only [hex] at h
                by_cases ht : target ∈ includesOf spf
                · simp only [if_pos ht, Option.some.injEq, Except.ok.injEq,
                    Prod.mk.injEq] at h
                  obtain ⟨rfl, rfl⟩ := h
                  intro d hd
                  rcases List.mem_append.mp hd with hd | hd
                  · exact htr d hd
                  · simp only [List.mem_singleton] at hd
                    subst hd
                    exact hgood
                · simp only [if_neg ht] at h
                  refine ih _ _ _ _ _ _ _ h ?_
                  intro d hd
                  rcases List.mem_append.mp hd with hd | hd
                  · exact htr d hd
                  · simp only [List.mem_singleton] at hd
                    subst hd
                    exact hgood

/-- Claim C1: one invocation of `SpfChecker::check` inserts at most 10
domains into the visited set and issues at most 10 Record Source
queries (the ghost trace records the queries, and the reported
`visited` count equals the trace length); reaching the budget is a
normal terminal state: on the spec's synthetic chain of 15 distinct
include edges the traversal stops with an `Ok` result, `visited = 10`
and `found = false`. -/
theorem C1_lookup_budget :
    (∀ (src : RecordSource) (extract : MechExtractor) (root target : String)
       (res : CheckResult) (tr : List String),
       check src extract root target = .ok (res, tr) →
       res.visited ≤ DNS_LOOKUP_LIMIT ∧ res.visited = tr.length ∧
         tr.length ≤ DNS_LOOKUP_LIMIT) ∧
    check (tableSrc chainRecords) (tableExtract chainParses) "d0" "victim" =
      .ok (⟨false, 10, some "v=spf1 include:d1",
        some ["d1", "d2", "d3", "d4", "d5", "d6", "d7", "d8", "d9", "d10"]⟩,
        ["d0", "d1", "d2", "d3", "d4", "d5", "d6", "d7", "d8", "d9"]) := by
  constructor
  · intro src extract root target res tr h
    obtain ⟨f, hf⟩ := checkLoop_complete src extract root target [] [root] none [] []
    rw [show checkLoop src extract root target [] [root] none [] [] =
      check src extract root target from rfl, h] at hf
    obtain ⟨h1, h2, h3⟩ :=
      checkLoopF_invariant src extract root target f [] [root] none [] [] res tr hf
        rfl (by simp) (by simp)
    exact ⟨h3, h1, by omega⟩
  · exact checkLoopF_sound _ _ _ _ 40 _ _ _ _ _ _ rfl

/-- Witness for claim C1 at a concrete input (the repository's
`test_target_in_first_record` scenario). -/
theorem C1_lookup_budget_witness :
    check (tableSrc directRecords) (tableExtract directParses) "example.com"
        "mail.easybill.de" =
      .ok (⟨true, 1, some "v=spf1 include:mail.easybill.de ~all",
        some ["mail.easybill.de"]⟩, ["example.com"]) ∧
    (⟨true, 1, some "v=spf1 include:mail.easybill.de ~all",
        some ["mail.easybill.de"]⟩ : CheckResult).visited ≤ DNS_LOOKUP_LIMIT ∧
    (⟨true, 1, some "v=spf1 include:mail.easybill.de ~all",
        some ["mail.easybill.de"]⟩ : CheckResult).visited =
      (["example.com"] : List String).length ∧
    (["example.com"] : List String).length ≤ DNS_LOOKUP_LIMIT :=
  have h : check (tableSrc directRecords) (tableExtract directParses) "example.com"
      "mail.easybill.de" =
      .ok (⟨true, 1, some "v=spf1 include:mail.easybill.de ~all",
        some ["mail.easybill.de"]⟩, ["example.com"]) :=
    checkLoopF_sound _ _ _ _ 5 _ _ _ _ _ _ rfl
  ⟨h, C1_lookup_budget.1 _ _ _ _ _ _ h⟩

/-- Claim C2: within one invocation each domain is queried via the
Record Source at most once (the query trace is duplicate-free), and on
the spec's cyclic scenario (`a.com` includes `b.com`, `b.com` includes
`a.com`) the traversal terminates with `visited = 2`. -/
theorem C2_query_once :
    (∀ (src : RecordSource) (extract : MechExtractor) (root target : String)
       (res : CheckResult) (tr : List String),
       check src extract root target = .ok (res, tr) → tr.Nodup) ∧
    check (tableSrc cycleRecords) (tableExtract cycleParses) "a.com" "mail.other.com" =
      .ok (⟨false, 2, some "v=spf1 include:b.com ~all", some ["b.com", "a.com"]⟩,
        ["a.com", "b.com"]) := by
  constructor
  · intro src extract root target res tr h
    obtain ⟨f, hf⟩ := checkLoop_complete src extract root target [] [root] none [] []
    rw [show checkLoop src extract root target [] [root] none [] [] =
      check src extract root target from rfl, h] at hf
    exact (checkLoopF_invariant src extract root target f [] [root] none [] [] res tr hf
      rfl (by simp) (by simp)).2.1
  · exact checkLoopF_sound _ _ _ _ 5 _ _ _ _ _ _ rfl

/-- Witness for claim C2 at a concrete input. -/
theorem C2_query_once_witness :
    check (tableSrc directRecords) (tableExtract directParses) "example.com"
        "mail.easybill.de" =
      .ok (⟨true, 1, some "v=spf1 include:mail.easybill.de ~all",
        some ["mail.easybill.de"]⟩, ["example.com"]) ∧
    (["example.com"] : List String).Nodup :=
  have h : check (tableSrc directRecords) (tableExtract directParses) "example.com"
      "mail.easybill.de" =
      .ok (⟨true, 1, some "v=spf1 include:mail.easybill.de ~all",
        some ["mail.easybill.de"]⟩, ["example.com"]) :=
    checkLoopF_sound _ _ _ _ 5 _ _ _ _ _ _ rfl
  ⟨h, C2_query_once.1 _ _ _ _ _ _ h⟩

/-- Counterexample to claim C3 as stated: for the root record
`v=spf1 all include:b.com redirect=b.com` (which contains an `All`
mechanism), the redirect target `b.com` is nonetheless pushed and
queried — because the same domain is also an include target — and the
traversal ends with `visited = 2`, not 1. -/
theorem C3_counterexample :
    tableSrc allRedirRecords "a.com" =
      .ok (some "v=spf1 all include:b.com redirect=b.com") ∧
    tableExtract allRedirParses "v=spf1 all include:b.com redirect=b.com" =
      some [⟨.all, "all"⟩, ⟨.inc, "b.com"⟩, ⟨.redir, "b.com"⟩] ∧
    redirectsOf [⟨.all, "all"⟩, ⟨.inc, "b.com"⟩, ⟨.redir, "b.com"⟩] = ["b.com"] ∧
    hasAll [⟨.all, "all"⟩, ⟨.inc, "b.com"⟩, ⟨.redir, "b.com"⟩] = true ∧
    check (tableSrc allRedirRecords) (tableExtract allRedirParses) "a.com" "t.com" =
      .ok (⟨false, 2, some "v=spf1 all include:b.com redirect=b.com", some ["b.com"]⟩,
        ["a.com", "b.com"]) ∧
    "b.com" ∈ (["a.com", "b.com"] : List String) :=
  ⟨rfl, rfl, rfl, rfl, checkLoopF_sound _ _ _ _ 5 _ _ _ _ _ _ rfl, by decide⟩

/-- Claim C3 (amended): at a visited domain whose record contains an
`All` mechanism, the redirect mechanisms contribute no frontier push —
the step pushes only the include targets; in particular, a root whose
record contains `all`, a redirect and no includes ends the traversal
with `visited = 1` regardless of the redirect target's record. -/
theorem C3_redirect_suppressed :
    (∀ (src : RecordSource) (extract : MechExtractor) (root target : String)
       (visited : List String) (current : String) (rest : List String)
       (rr : Option String) (acc tr : List String) (spf_txt : String)
       (spf : List Mechanism),
       ¬ visited.length ≥ DNS_LOOKUP_LIMIT → current ∉ visited →
       src current = .ok (some spf_txt) → extract spf_txt = some spf →
       target ∉ includesOf spf → hasAll spf = true →
       checkLoop src extract root target visited (current :: rest) rr acc tr =
         checkLoop src extract root target (current :: visited)
           ((includesOf spf).reverse ++ rest)
           (if root = current then some spf_txt else rr)
           (acc ++ includesOf spf) (tr ++ [current])) ∧
    (∀ (src : RecordSource) (extract : MechExtractor) (root target : String)
       (spf_txt : String) (spf : List Mechanism),
       src root = .ok (some spf_txt) → extract spf_txt = some spf →
       hasAll spf = true → includesOf spf = [] →
       check src extract root target =
         .ok (⟨false, 1, some spf_txt, some []⟩, [root])) := by
  constructor
  · intro src extract root target visited current rest rr acc tr spf_txt spf
      hb hv hsrc hex ht hall
    rw [checkLoop.eq_def]
    simp [if_neg hb, hv, hsrc, hex, if_neg ht, hall]
  · intro src extract root target spf_txt spf hsrc hex hall hinc
    unfold check
    rw [checkLoop.eq_def]
    simp [DNS_LOOKUP_LIMIT, hsrc, hex, hinc, hall]
    rw [checkLoop.eq_def]
    simp

/-- Witness for claim C3 (amended) at the spec's own scenario: root
record `v=spf1 all redirect=spf.other.com` (the redirect target does
have a record of its own, which is never consulted). -/
theorem C3_redirect_suppressed_witness :
    hasAll [⟨.all, "all"⟩, ⟨.redir, "spf.other.com"⟩] = true ∧
    includesOf [⟨.all, "all"⟩, ⟨.redir, "spf.other.com"⟩] = [] ∧
    check (tableSrc allSuppressRecords) (tableExtract allSuppressParses)
        "example.com" "zz.com" =
      .ok (⟨false, 1, some "v=spf1 all redirect=spf.other.com", some []⟩,
        ["example.com"]) :=
  ⟨rfl, rfl, C3_redirect_suppressed.2 _ _ _ _ _ _ rfl rfl rfl rfl⟩

/-- Counterexample to the visit-order consequence of claim C4: the root
`a.com` has include targets `i1.com`, `i2.com` and redirect target
`rr.com`, but because `i2.com`'s record pushes `rr.com` again on top of
the stack, `rr.com` is visited (queried) before the root's include
target `i1.com`. -/
theorem C4_counterexample :
    includesOf [⟨.inc, "i1.com"⟩, ⟨.inc, "i2.com"⟩, ⟨.redir, "rr.com"⟩] =
      ["i1.com", "i2.com"] ∧
    redirectsOf [⟨.inc, "i1.com"⟩, ⟨.inc, "i2.com"⟩, ⟨.redir, "rr.com"⟩] =
      ["rr.com"] ∧
    check (tableSrc orderRecords) (tableExtract orderParses) "a.com" "zz.com" =
      .ok (⟨false, 4, some "v=spf1 include:i1.com include:i2.com redirect=rr.com",
        some ["i1.com", "i2.com", "rr.com"]⟩,
        ["a.com", "i2.com", "rr.com", "i1.com"]) ∧
    (["a.com", "i2.com", "rr.com", "i1.com"] : List String).indexOf "rr.com" <
      (["a.com", "i2.com", "rr.com", "i1.com"] : List String).indexOf "i1.com" :=
  ⟨rfl, rfl, checkLoopF_sound _ _ _ _ 8 _ _ _ _ _ _ rfl, by decide⟩

/-- Claim C4 (amended): at every visited node the eligible redirect
targets are pushed onto the frontier first and the include targets
after them, and the loop pops from the same end (the list head), so on
the resulting frontier every one of the node's include-target entries
sits above every one of its redirect-target entries. -/
theorem C4_frontier_order :
    ∀ (src : RecordSource) (extract : MechExtractor) (root target : String)
      (visited : List String) (current : String) (rest : List String)
      (rr : Option String) (acc tr : List String) (spf_txt : String)
      (spf : List Mechanism),
      ¬ visited.length ≥ DNS_LOOKUP_LIMIT → current ∉ visited →
      src current = .ok (some spf_txt) → extract spf_txt = some spf →
      target ∉ includesOf spf →
      checkLoop src extract root target visited (current :: rest) rr acc tr =
        checkLoop src extract root target (current :: visited)
          ((includesOf spf).reverse ++
            (if hasAll spf then [] else redirectsOf spf).reverse ++ rest)
          (if root = current then some spf_txt else rr)
          (acc ++ includesOf spf) (tr ++ [current]) := by
  intro src extract root target visited current rest rr acc tr spf_txt spf
    hb hv hsrc hex ht
  rw [checkLoop.eq_def]
  simp [if_neg hb, hv, hsrc, hex, if_neg ht]

/-- Witness for claim C4 (amended) at a concrete step: processing
`a.com` from the order table pushes `i2.com, i1.com` above `rr.com`. -/
theorem C4_frontier_order_witness :
    ¬ ([] : List String).length ≥ DNS_LOOKUP_LIMIT ∧
    "a.com" ∉ ([] : List String) ∧
    tableSrc orderRecords "a.com" =
      .ok (some "v=spf1 include:i1.com include:i2.com redirect=rr.com") ∧
    tableExtract orderParses "v=spf1 include:i1.com include:i2.com redirect=rr.com" =
      some [⟨.inc, "i1.com"⟩, ⟨.inc, "i2.com"⟩, ⟨.redir, "rr.com"⟩] ∧
    "zz.com" ∉ includesOf [⟨.inc, "i1.com"⟩, ⟨.inc, "i2.com"⟩, ⟨.redir, "rr.com"⟩] ∧
    checkLoop (tableSrc orderRecords) (tableExtract orderParses) "a.com" "zz.com"
        [] ["a.com"] none [] [] =
      checkLoop (tableSrc orderRecords) (tableExtract orderParses) "a.com" "zz.com"
        ["a.com"]
        ((includesOf [⟨.inc, "i1.com"⟩, ⟨.inc, "i2.com"⟩, ⟨.redir, "rr.com"⟩]).reverse ++
          (if hasAll [⟨.inc, "i1.com"⟩, ⟨.inc, "i2.com"⟩, ⟨.redir, "rr.com"⟩] then []
            else redirectsOf [⟨.inc, "i1.com"⟩, ⟨.inc, "i2.com"⟩, ⟨.redir, "rr.com"⟩]).reverse ++ [])
        (if "a.com" = "a.com"
          then some "v=spf1 include:i1.com include:i2.com redirect=rr.com" else none)
        ([] ++ includesOf [⟨.inc, "i1.com"⟩, ⟨.inc, "i2.com"⟩, ⟨.redir, "rr.com"⟩])
        ([] ++ ["a.com"]) :=
  ⟨by decide, by decide, rfl, rfl, by decide,
    C4_frontier_order _ _ _ _ _ _ _ _ _ _ _ _ (by decide) (by decide) rfl rfl (by decide)⟩

/-- Counterexample to claim C5 as stated: for root record
`v=spf1 redirect=t.com` the target `t.com` is named by a redirect
mechanism of the root's own record (and is even queried), yet `check`
returns `found = false` — being named by a reachable redirect does not
suffice. -/
theorem C5_counterexample :
    tableSrc redirOnlyRecords "a.com" = .ok (some "v=spf1 redirect=t.com") ∧
    tableExtract redirOnlyParses "v=spf1 redirect=t.com" =
      some [⟨.redir, "t.com"⟩] ∧
    redirectsOf [⟨.redir, "t.com"⟩] = ["t.com"] ∧
    check (tableSrc redirOnlyRecords) (tableExtract redirOnlyParses) "a.com" "t.com" =
      .ok (⟨false, 2, some "v=spf1 redirect=t.com", some []⟩, ["a.com", "t.com"]) ∧
    "t.com" ∈ (["a.com", "t.com"] : List String) :=
  ⟨rfl, rfl, rfl, checkLoopF_sound _ _ _ _ 5 _ _ _ _ _ _ rfl, by decide⟩

/-- Claim C5 (amended): `check` returns `found = true` exactly when the
target occurs in the accumulated `included_domains` — i.e. exactly when
some visited domain's record names the target through an `include`
mechanism; redirect edges only extend the set of visited domains. -/
theorem C5_found_iff_included :
    ∀ (src : RecordSource) (extract : MechExtractor) (root target : String)
      (res : CheckResult) (tr : List String),
      check src extract root target = .ok (res, tr) →
      (res.found = true ↔ ∃ l, res.included_domains = some l ∧ target ∈ l) := by
  intro src extract root target res tr h
  obtain ⟨f, hf⟩ := checkLoop_complete src extract root target [] [root] none [] []
  rw [show checkLoop src extract root target [] [root] none [] [] =
    check src extract root target from rfl, h] at hf
  exact checkLoopF_found_iff src extract root target f _ _ _ _ _ _ _ hf (by simp)

/-- Witness for claim C5 (amended) at a concrete input. -/
theorem C5_found_iff_included_witness :
    (⟨true, 1, some "v=spf1 include:mail.easybill.de ~all",
        some ["mail.easybill.de"]⟩ : CheckResult).found = true ↔
      ∃ l, (⟨true, 1, some "v=spf1 include:mail.easybill.de ~all",
        some ["mail.easybill.de"]⟩ : CheckResult).included_domains = some l ∧
        "mail.easybill.de" ∈ l :=
  C5_found_iff_included (tableSrc directRecords) (tableExtract directParses)
    "example.com" "mail.easybill.de" _ _
    (checkLoopF_sound _ _ _ _ 5 _ _ _ _ _ _ rfl)

/-- Claim C6: when the target appears among the include targets of the
record of the domain currently being visited, `check` terminates
immediately with `found = true`: no further frontier entry is popped,
no further Record Source query is issued (the trace ends at the current
domain), and `visited` counts the domains visited up to and including
that node. -/
theorem C6_early_exit :
    ∀ (src : RecordSource) (extract : MechExtractor) (root target : String)
      (visited : List String) (current : String) (rest : List String)
      (rr : Option String) (acc tr : List String) (spf_txt : String)
      (spf : List Mechanism),
      ¬ visited.length ≥ DNS_LOOKUP_LIMIT → current ∉ visited →
      src current = .ok (some spf_txt) → extract spf_txt = some spf →
      target ∈ includesOf spf →
      checkLoop src extract root target visited (current :: rest) rr acc tr =
        .ok (⟨true, visited.length + 1,
          (if root = current then some spf_txt else rr),
          some (acc ++ includesOf spf)⟩, tr ++ [current]) := by
  intro src extract root target visited current rest rr acc tr spf_txt spf
    hb hv hsrc hex ht
  rw [checkLoop.eq_def]
  simp [if_neg hb, hv, hsrc, hex, ht]

/-- Witness for claim C6 at a concrete mid-loop state with a non-empty
remaining frontier (`y.com` is never popped). -/
theorem C6_early_exit_witness :
    ¬ (["x.com"] : List String).length ≥ DNS_LOOKUP_LIMIT ∧
    "example.com" ∉ (["x.com"] : List String) ∧
    tableSrc directRecords "example.com" =
      .ok (some "v=spf1 include:mail.easybill.de ~all") ∧
    tableExtract directParses "v=spf1 include:mail.easybill.de ~all" =
      some [⟨.inc, "mail.easybill.de"⟩, ⟨.all, "~all"⟩] ∧
    "mail.easybill.de" ∈ includesOf [⟨.inc, "mail.easybill.de"⟩, ⟨.all, "~all"⟩] ∧
    checkLoop (tableSrc directRecords) (tableExtract directParses) "example.com"
        "mail.easybill.de" ["x.com"] ["example.com", "y.com"] none [] ["x.com"] =
      .ok (⟨true, (["x.com"] : List String).length + 1,
        (if "example.com" = "example.com"
          then some "v=spf1 include:mail.easybill.de ~all" else none),
        some ([] ++ includesOf [⟨.inc, "mail.easybill.de"⟩, ⟨.all, "~all"⟩])⟩,
        ["x.com"] ++ ["example.com"]) :=
  ⟨by decide, by decide, rfl, rfl, by decide,
    C6_early_exit _ _ _ _ _ _ _ _ _ _ _ _ (by decide) (by decide) rfl rfl (by decide)⟩

/-- Claim C7: an error result is exactly one of the two failure
conditions — the Record Source failed for a queried domain
(`recordSourceError`) or a retrieved record failed to parse
(`recordParseError`); in an `Ok` run every queried domain had a working
answer whose record (if any) parsed; a root with no SPF record yields
`Ok` with `found = false`; and budget exhaustion (the 15-chain) also
yields `Ok` with `found = false`. -/
theorem C7_error_taxonomy :
    (∀ (src : RecordSource) (extract : MechExtractor) (root target : String)
       (e : CheckError),
       check src extract root target = .error e →
       (∃ d, e = .recordSourceError d ∧ src d = .error ()) ∨
       (∃ s, e = .recordParseError s ∧ extract s = none ∧
         ∃ d, src d = .ok (some s))) ∧
    (∀ (src : RecordSource) (extract : MechExtractor) (root target : String)
       (res : CheckResult) (tr : List String),
       check src extract root target = .ok (res, tr) →
       ∀ d ∈ tr, GoodDomain src extract d) ∧
    (∀ (src : RecordSource) (extract : MechExtractor) (root target : String),
       src root = .ok none →
       check src extract root target = .ok (⟨false, 1, none, some []⟩, [root])) ∧
    (∃ res tr,
       check (tableSrc chainRecords) (tableExtract chainParses) "d0" "victim" =
         .ok (res, tr) ∧ res.found = false ∧ res.visited = DNS_LOOKUP_LIMIT) := by
  refine ⟨?_, ?_, ?_, ?_⟩
  · intro src extract root target e h
    obtain ⟨f, hf⟩ := checkLoop_complete src extract root target [] [root] none [] []
    rw [show checkLoop src extract root target [] [root] none [] [] =
      check src extract root target from rfl, h] at hf
    exact checkLoopF_error_char src extract root target f _ _ _ _ _ _ hf
  · intro src extract root target res tr h
    obtain ⟨f, hf⟩ := checkLoop_complete src extract root target [] [root] none [] []
    rw [show checkLoop src extract root target [] [root] none [] [] =
      check src extract root target from rfl, h] at hf
    exact checkLoopF_ok_trace src extract root target f _ _ _ _ _ _ _ hf (by simp)
  · intro src extract root target hsrc
    unfold check
    rw [checkLoop.eq_def]
    simp [DNS_LOOKUP_LIMIT, hsrc]
    rw [checkLoop.eq_def]
    simp
  · exact ⟨_, _, checkLoopF_sound _ _ _ _ 40 _ _ _ _ _ _ rfl, rfl, rfl⟩

/-- Witness for claim C7 at concrete inputs: a source with no record
for the root produces a normal miss, and a failing source produces an
error satisfying the taxonomy. -/
theorem C7_error_taxonomy_witness :
    check (tableSrc []) (tableExtract []) "nosuch.example" "t.com" =
      .ok (⟨false, 1, none, some []⟩, ["nosuch.example"]) ∧
    ((∃ d, CheckError.recordSourceError "x.com" = .recordSourceError d ∧
        failSrc d = .error ()) ∨
     (∃ s, CheckError.recordSourceError "x.com" = .recordParseError s ∧
        tableExtract [] s = none ∧ ∃ d, failSrc d = .ok (some s))) :=
  ⟨C7_error_taxonomy.2.2.1 _ _ _ _ rfl,
   C7_error_taxonomy.1 failSrc (tableExtract []) "x.com" "t.com" _
     (checkLoopF_sound _ _ _ _ 3 _ _ _ _ _ _ rfl)⟩

/-- Claim C8: if the root's own record lists the target as an include
target, `check` returns `found = true`, `visited = 1`, the root's raw
record text, and an `included_domains` sequence containing the target
(it equals the root's include list). -/
theorem C8_direct_match :
    ∀ (src : RecordSource) (extract : MechExtractor) (root target : String)
      (spf_txt : String) (spf : List Mechanism),
      src root = .ok (some spf_txt) → extract spf_txt = some spf →
      target ∈ includesOf spf →
      check src extract root target =
        .ok (⟨true, 1, some spf_txt, some (includesOf spf)⟩, [root]) := by
  intro src extract root target spf_txt spf hsrc hex ht
  unfold check
  rw [checkLoop.eq_def]
  simp [DNS_LOOKUP_LIMIT, hsrc, hex, ht]

/-- Witness for claim C8 at the repository's own test scenario. -/
theorem C8_direct_match_witness :
    tableSrc directRecords "example.com" =
      .ok (some "v=spf1 include:mail.easybill.de ~all") ∧
    tableExtract directParses "v=spf1 include:mail.easybill.de ~all" =
      some [⟨.inc, "mail.easybill.de"⟩, ⟨.all, "~all"⟩] ∧
    "mail.easybill.de" ∈ includesOf [⟨.inc, "mail.easybill.de"⟩, ⟨.all, "~all"⟩] ∧
    check (tableSrc directRecords) (tableExtract directParses) "example.com"
        "mail.easybill.de" =
      .ok (⟨true, 1, some "v=spf1 include:mail.easybill.de ~all",
        some (includesOf [⟨.inc, "mail.easybill.de"⟩, ⟨.all, "~all"⟩])⟩,
        ["example.com"]) :=
  ⟨rfl, rfl, by decide, C8_direct_match _ _ _ _ _ _ rfl rfl (by decide)⟩

/-- Claim C9: `check` is deterministic and stateless across
invocations: against record sources and extractors that answer
identically it returns identical results, and every invocation starts
from a freshly created empty visited set and a frontier holding only
the root (no state is shared between invocations — the traversal state
is built inside the call from its arguments alone). -/
theorem C9_stateless_deterministic :
    (∀ (src₁ src₂ : RecordSource) (ext₁ ext₂ : MechExtractor) (root target : String),
       (∀ d, src₁ d = src₂ d) → (∀ s, ext₁ s = ext₂ s) →
       check src₁ ext₁ root target = check src₂ ext₂ root target) ∧
    (∀ (src : RecordSource) (extract : MechExtractor) (root target : String),
       check src extract root target =
         checkLoop src extract root target [] [root] none [] []) := by
  constructor
  · intro src₁ src₂ ext₁ ext₂ root target h1 h2
    rw [funext h1, funext h2]
  · intro src extract root target
    rfl

/-- Witness for claim C9 at a concrete input. -/
theorem C9_stateless_deterministic_witness :
    check (tableSrc directRecords) (tableExtract directParses) "example.com"
        "mail.easybill.de" =
      check (tableSrc directRecords) (tableExtract directParses) "example.com"
        "mail.easybill.de" :=
  C9_stateless_deterministic.1 _ _ _ _ _ _ (fun _ => rfl) (fun _ => rfl)

/-- Claim C10: the recursive variant of main.rs, which clones the
visited set into each include branch, breaks the global lookup budget:
on the clone table (root includes `c1.com` twice; `c1.com … c9.com`
chain) one invocation performs 19 real Record Source lookups — more
than `MAX_DEPTH` = 10 — because each sibling branch independently runs
9 lookups against its own cloned visited set. -/
theorem C10_clone_budget_blowup :
    (mainCheck (tableSrc cloneRecords) (tableExtract cloneParses) "zz.com"
      15 "r.com" []).2 = 19 ∧
    MAX_DEPTH < 19 ∧ DNS_LOOKUP_LIMIT < 19 ∧
    (mainCheck (tableSrc cloneRecords) (tableExtract cloneParses) "zz.com"
      14 "c1.com" ["r.com"]).2 = 9 :=
  ⟨rfl, by decide, by decide, rfl⟩

end SpfCheck
